import Mathlib

/-!
Verification development for the atmos_agro_atlas raster pipeline.

The Python source (src/core/...) is shallowly embedded below.  Pixel values
are modelled by `FVal`, an idealised IEEE-754 value: an exact rational for
finite floats plus the special values `nan`, `inf` (+∞) and `ninf` (−∞).
Rounding and overflow of float32 are abstracted away (finite arithmetic is
exact), but the zero / NaN / infinity structure — the part the claims are
about — follows IEEE semantics, which is what numpy implements elementwise.
-/

/-- Idealised floating-point value: exact rational, NaN, +∞ or −∞. -/
inductive FVal where
  | fin (q : ℚ)
  | nan
  | inf
  | ninf
deriving DecidableEq, Repr

namespace FVal

/-- `np.isnan` on one value. -/
def isNan : FVal → Bool
  | nan => true
  | _ => false

/-- `np.isfinite` on one value. -/
def isFinite : FVal → Bool
  | fin _ => true
  | _ => false

/-- IEEE negation. -/
def neg : FVal → FVal
  | fin q => fin (-q)
  | nan => nan
  | inf => ninf
  | ninf => inf

/-- IEEE addition (NaN propagates; ∞ + (−∞) = NaN). -/
def add : FVal → FVal → FVal
  | nan, _ => nan
  | _, nan => nan
  | fin a, fin b => fin (a + b)
  | inf, ninf => nan
  | ninf, inf => nan
  | inf, _ => inf
  | _, inf => inf
  | ninf, _ => ninf
  | _, ninf => ninf

/-- IEEE subtraction. -/
def sub (a b : FVal) : FVal := a.add b.neg

/-- IEEE multiplication (0·∞ = NaN). -/
def mul : FVal → FVal → FVal
  | nan, _ => nan
  | _, nan => nan
  | fin a, fin b => fin (a * b)
  | inf, fin b => if b = 0 then nan else if 0 < b then inf else ninf
  | fin a, inf => if a = 0 then nan else if 0 < a then inf else ninf
  | ninf, fin b => if b = 0 then nan else if 0 < b then ninf else inf
  | fin a, ninf => if a = 0 then nan else if 0 < a then ninf else inf
  | inf, inf => inf
  | ninf, ninf => inf
  | inf, ninf => ninf
  | ninf, inf => ninf

/-- IEEE division (x/0 saturates to ±∞ for x ≠ 0, 0/0 = NaN, ∞/∞ = NaN).
The model has a single zero, so 1/0 = +∞ as for IEEE +0. -/
def div : FVal → FVal → FVal
  | nan, _ => nan
  | _, nan => nan
  | fin a, fin b =>
      if b = 0 then (if a = 0 then nan else if 0 < a then inf else ninf)
      else fin (a / b)
  | fin _, inf => fin 0
  | fin _, ninf => fin 0
  | inf, fin b => if b < 0 then ninf else inf
  | ninf, fin b => if b < 0 then inf else ninf
  | inf, inf => nan
  | inf, ninf => nan
  | ninf, inf => nan
  | ninf, ninf => nan

/-- numpy `x == 0` on one value (false for NaN and infinities). -/
def eqZero : FVal → Bool
  | fin q => q = 0
  | _ => false

/-- `float(x)` applied to a value known to be finite (default 0 unused). -/
def toRat : FVal → ℚ
  | fin q => q
  | _ => 0

end FVal

/-!
## `src/core/engine/index_calculator.py` — pixelwise formulas

`_compute_index` and the `compute_*` formulas below act elementwise on
numpy arrays; we embed them per pixel.
-/

/-- `_compute_index(numerator, denominator)`:
mask = denominator == 0; denominator = where(mask, nan, denominator);
index = numerator / denominator; return where(isnan(index), 0, index). -/
def computeIndexPix (numerator denominator : FVal) : FVal :=
  let denominator' := if denominator.eqZero then FVal.nan else denominator
  let index := numerator.div denominator'
  if index.isNan then FVal.fin 0 else index

/-- `compute_ndvi(nir, red)` per pixel. -/
def compute_ndvi (nir red : FVal) : FVal :=
  computeIndexPix (nir.sub red) (nir.add red)

/-- `compute_ndwi(nir, swir)` per pixel. -/
def compute_ndwi (nir swir : FVal) : FVal :=
  computeIndexPix (nir.sub swir) (nir.add swir)

/-- `compute_msi(nir, swir)` per pixel. -/
def compute_msi (nir swir : FVal) : FVal :=
  computeIndexPix swir nir

/-- Denominator of EVI: `nir + 6 * red - 7.5 * blue + 1`. -/
def eviDenominator (nir red blue : FVal) : FVal :=
  ((nir.add ((FVal.fin 6).mul red)).sub ((FVal.fin (15/2)).mul blue)).add (FVal.fin 1)

/-- `compute_evi(nir, red, blue)` per pixel:
`2.5 * _compute_index(nir - red, nir + 6*red - 7.5*blue + 1)`. -/
def compute_evi (nir red blue : FVal) : FVal :=
  (FVal.fin (5/2)).mul (computeIndexPix (nir.sub red) (eviDenominator nir red blue))

/-- `compute_ndre(nir, rededge)` per pixel. -/
def compute_ndre (nir rededge : FVal) : FVal :=
  computeIndexPix (nir.sub rededge) (nir.add rededge)

/-- `compute_ndmi(nir, swir)` per pixel. -/
def compute_ndmi (nir swir : FVal) : FVal :=
  computeIndexPix (nir.sub swir) (nir.add swir)

/-- `compute_ndre_generic(nir, rededge)` per pixel. -/
def compute_ndre_generic (nir rededge : FVal) : FVal :=
  computeIndexPix (nir.sub rededge) (nir.add rededge)

/-- `compute_ci_rededge(nir, rededge4)` per pixel: `(nir / rededge4) - 1`
(note: this formula does NOT go through `_compute_index`). -/
def compute_ci_rededge (nir rededge4 : FVal) : FVal :=
  (nir.div rededge4).sub (FVal.fin 1)

/-- `compute_sipi(nir, red, blue)` per pixel. -/
def compute_sipi (nir red blue : FVal) : FVal :=
  computeIndexPix (nir.sub blue) (nir.sub red)

/-- One entry of the index registry: the ordered band aliases and the
formula, taken on the per-pixel band values in band order (the formula
reads its arguments positionally, as `spec.func(*arrays)` does). -/
structure IndexSpec where
  bands : List String
  func : List FVal → FVal

/-- The fixed registry `INDEX_SPECS`, as an association list keeping the
insertion order of the Python dict. -/
def INDEX_SPECS : List (String × IndexSpec) :=
  [ ("ndvi", ⟨["nir", "red"], fun vs => compute_ndvi (vs.getD 0 .nan) (vs.getD 1 .nan)⟩),
    ("ndwi", ⟨["nir", "swir1"], fun vs => compute_ndwi (vs.getD 0 .nan) (vs.getD 1 .nan)⟩),
    ("msi", ⟨["nir", "swir1"], fun vs => compute_msi (vs.getD 0 .nan) (vs.getD 1 .nan)⟩),
    ("evi", ⟨["nir", "red", "blue"],
      fun vs => compute_evi (vs.getD 0 .nan) (vs.getD 1 .nan) (vs.getD 2 .nan)⟩),
    ("ndre", ⟨["nir", "rededge4"], fun vs => compute_ndre (vs.getD 0 .nan) (vs.getD 1 .nan)⟩),
    ("ndmi", ⟨["nir", "swir1"], fun vs => compute_ndmi (vs.getD 0 .nan) (vs.getD 1 .nan)⟩),
    ("ndre1", ⟨["nir", "rededge1"],
      fun vs => compute_ndre_generic (vs.getD 0 .nan) (vs.getD 1 .nan)⟩),
    ("ndre2", ⟨["nir", "rededge2"],
      fun vs => compute_ndre_generic (vs.getD 0 .nan) (vs.getD 1 .nan)⟩),
    ("ndre3", ⟨["nir", "rededge3"],
      fun vs => compute_ndre_generic (vs.getD 0 .nan) (vs.getD 1 .nan)⟩),
    ("ndre4", ⟨["nir", "rededge4"],
      fun vs => compute_ndre_generic (vs.getD 0 .nan) (vs.getD 1 .nan)⟩),
    ("ci_rededge", ⟨["nir", "rededge4"],
      fun vs => compute_ci_rededge (vs.getD 0 .nan) (vs.getD 1 .nan)⟩),
    ("sipi", ⟨["nir", "red", "blue"],
      fun vs => compute_sipi (vs.getD 0 .nan) (vs.getD 1 .nan) (vs.getD 2 .nan)⟩) ]

/-- The denominator each registry formula feeds to its division, read off
the `compute_*` bodies, as a function of the per-pixel band values in band
order. -/
def indexDenominator (name : String) (vs : List FVal) : FVal :=
  let v0 := vs.getD 0 .nan
  let v1 := vs.getD 1 .nan
  let v2 := vs.getD 2 .nan
  if name = "msi" then v0
  else if name = "evi" then eviDenominator v0 v1 v2
  else if name = "ci_rededge" then v1
  else if name = "sipi" then v0.sub v1
  else v0.add v1

/-- `num.div nan = nan` for every `num`. -/
theorem FVal.div_nan (num : FVal) : num.div FVal.nan = FVal.nan := by
  cases num <;> rfl

@[simp] theorem FVal.add_fin (a b : ℚ) :
    (FVal.fin a).add (FVal.fin b) = FVal.fin (a + b) := rfl

@[simp] theorem FVal.sub_fin (a b : ℚ) :
    (FVal.fin a).sub (FVal.fin b) = FVal.fin (a - b) := by
  show FVal.fin (a + -b) = FVal.fin (a - b)
  rw [← sub_eq_add_neg]

@[simp] theorem FVal.mul_fin (a b : ℚ) :
    (FVal.fin a).mul (FVal.fin b) = FVal.fin (a * b) := rfl

@[simp] theorem FVal.eqZero_fin (a : ℚ) :
    (FVal.fin a).eqZero = decide (a = 0) := rfl

@[simp] theorem FVal.isNan_fin (a : ℚ) : (FVal.fin a).isNan = false := rfl

theorem FVal.div_fin_of_ne (a : ℚ) {b : ℚ} (hb : b ≠ 0) :
    (FVal.fin a).div (FVal.fin b) = FVal.fin (a / b) := by
  show (if b = 0 then _ else FVal.fin (a / b)) = FVal.fin (a / b)
  simp [hb]

/-- `_compute_index` on finite pixels with a nonzero denominator is plain
division. -/
theorem computeIndexPix_fin {d : ℚ} (n : ℚ) (hd : d ≠ 0) :
    computeIndexPix (FVal.fin n) (FVal.fin d) = FVal.fin (n / d) := by
  unfold computeIndexPix
  simp [hd, FVal.div_fin_of_ne _ hd]

/-- A zero denominator always makes `_compute_index` yield 0. -/
theorem computeIndexPix_zero_den (num : FVal) :
    computeIndexPix num (FVal.fin 0) = FVal.fin 0 := by
  unfold computeIndexPix
  simp [FVal.eqZero, FVal.div_nan, FVal.isNan]

-- Sanity: NDVI on the spec's end-to-end scenario 1 values.
example : compute_ndvi (.fin (1/2)) (.fin (1/10)) = .fin (2/3) := by
  unfold compute_ndvi
  rw [FVal.sub_fin, FVal.add_fin]
  rw [computeIndexPix_fin _ (by norm_num)]
  norm_num

-- Sanity: division by a zero denominator saturates to 0 through the helper.
example : compute_ndvi (.fin (1/2)) (.fin (-(1/2))) = .fin 0 := by
  unfold compute_ndvi
  rw [FVal.sub_fin, FVal.add_fin]
  norm_num [computeIndexPix_zero_den]

/-!
## Claims C1 and C10 — division-by-zero and NaN saturation
-/

/-- C1 (counterexample): the claim "for EVERY index formula in the registry a
zero denominator yields index value 0" is false: the registered `ci_rededge`
formula, at a pixel with `nir = 1` and `rededge4 = 0` (denominator exactly 0),
computes `(1 / 0) - 1 = +∞`, which is neither 0 nor finite. -/
theorem ciRededge_zero_denominator_not_zero :
    (INDEX_SPECS.lookup "ci_rededge").map
        (fun s => s.func [FVal.fin 1, FVal.fin 0]) = some FVal.inf ∧
      indexDenominator "ci_rededge" [FVal.fin 1, FVal.fin 0] = FVal.fin 0 ∧
      FVal.inf ≠ FVal.fin 0 ∧ FVal.inf.isFinite = false := by
  refine ⟨?_, by simp [indexDenominator], by simp, rfl⟩
  simp [INDEX_SPECS, List.lookup, compute_ci_rededge, FVal.div, FVal.sub,
    FVal.neg, FVal.add]

/-- C1 (amended): for every index formula in the registry EXCEPT
`ci_rededge`, a pixel whose formula denominator evaluates to exactly 0
computes index value exactly 0 (`ci_rededge` divides directly, without the
`_compute_index` guard, and saturates to ±∞/NaN instead). -/
theorem index_zero_denominator_yields_zero
    (name : String) (spec : IndexSpec) (vs : List FVal)
    (hmem : (name, spec) ∈ INDEX_SPECS) (hne : name ≠ "ci_rededge")
    (hden : indexDenominator name vs = FVal.fin 0) :
    spec.func vs = FVal.fin 0 := by
  fin_cases hmem <;>
    simp_all [indexDenominator, compute_ndvi, compute_ndwi, compute_msi,
      compute_evi, compute_ndre, compute_ndmi, compute_ndre_generic,
      compute_sipi, computeIndexPix_zero_den]

/-- C1 witness: `ndvi` at `nir = 1`, `red = -1` has denominator 0 and
computes 0. -/
theorem index_zero_denominator_yields_zero_witness :
    indexDenominator "ndvi" [FVal.fin 1, FVal.fin (-1)] = FVal.fin 0 ∧
      (IndexSpec.mk ["nir", "red"]
          (fun vs => compute_ndvi (vs.getD 0 .nan) (vs.getD 1 .nan))).func
        [FVal.fin 1, FVal.fin (-1)] = FVal.fin 0 := by
  refine ⟨by simp [indexDenominator], ?_⟩
  exact index_zero_denominator_yields_zero "ndvi" _ _
    (by unfold INDEX_SPECS; exact List.mem_cons_self _ _)
    (by simp)
    (by simp [indexDenominator])

/-- C10: the shared ratio helper `_compute_index` never returns NaN; any
pixel whose raw quotient is NaN — including a NaN numerator or a NaN
denominator (the no-data marker) — is mapped to the in-range value 0. -/
theorem computeIndexPix_never_nan (num den : FVal) :
    (computeIndexPix num den).isNan = false ∧
      ((num.div den).isNan = true → computeIndexPix num den = FVal.fin 0) ∧
      computeIndexPix FVal.nan den = FVal.fin 0 ∧
      computeIndexPix num FVal.nan = FVal.fin 0 := by
  have hnd : ∀ d : FVal, FVal.nan.div d = FVal.nan := by
    intro d; cases d <;> rfl
  have heq : ∀ m d : FVal, computeIndexPix m d =
      if (m.div (if d.eqZero then FVal.nan else d)).isNan then FVal.fin 0
      else m.div (if d.eqZero then FVal.nan else d) := fun _ _ => rfl
  refine ⟨?_, ?_, ?_, ?_⟩
  · rw [heq]
    by_cases hn : (num.div (if den.eqZero then FVal.nan else den)).isNan = true
    · rw [if_pos hn]; rfl
    · rw [if_neg hn]; exact Bool.not_eq_true _ ▸ hn
  · intro h
    rw [heq]
    by_cases hz : den.eqZero = true
    · rw [if_pos hz, FVal.div_nan]; rfl
    · rw [if_neg hz, if_pos h]
  · rw [heq, hnd]; rfl
  · rw [heq, ite_self, FVal.div_nan]; rfl

/-- C10 witness: a NaN numerator over denominator 1 has NaN quotient and is
saturated to 0. -/
theorem computeIndexPix_never_nan_witness :
    (computeIndexPix FVal.nan (FVal.fin 1)).isNan = false ∧
      computeIndexPix FVal.nan (FVal.fin 1) = FVal.fin 0 := by
  have h := computeIndexPix_never_nan FVal.nan (FVal.fin 1)
  exact ⟨h.1, h.2.1 rfl⟩

/-!
## Claim C5 — `_compute_clip_bounds`
(`src/core/engine/renderers/multi_index_map.py` and `truecolor_map.py`,
both bodies are identical.)

`extract_geometry_bounds` (an external geometry helper) returns either a
bounding box or `None` per overlay document; we take its results as input.
-/

/-- A geographic bounding box `(min_lon, min_lat, max_lon, max_lat)`. -/
structure BBox where
  minLon : ℚ
  minLat : ℚ
  maxLon : ℚ
  maxLat : ℚ
deriving DecidableEq, Repr

/-- `_compute_clip_bounds(overlay_geojsons)`: drop the `None` bounds; if
nothing remains return `None`; otherwise take coordinatewise min/max and pad
each side by `paddingFactor/2` of the width/height. -/
def computeClipBounds (overlayBounds : List (Option BBox)) (paddingFactor : ℚ) :
    Option BBox :=
  match overlayBounds.filterMap id with
  | [] => none
  | b :: bs =>
    let minLonGeo := (bs.map BBox.minLon).foldl min b.minLon
    let minLatGeo := (bs.map BBox.minLat).foldl min b.minLat
    let maxLonGeo := (bs.map BBox.maxLon).foldl max b.maxLon
    let maxLatGeo := (bs.map BBox.maxLat).foldl max b.maxLat
    let width := maxLonGeo - minLonGeo
    let height := maxLatGeo - minLatGeo
    let padLon := width * paddingFactor / 2
    let padLat := height * paddingFactor / 2
    some ⟨minLonGeo - padLon, minLatGeo - padLat, maxLonGeo + padLon, maxLatGeo + padLat⟩

/-- Smallest box containing two boxes. -/
def BBox.union (x y : BBox) : BBox :=
  ⟨min x.minLon y.minLon, min x.minLat y.minLat,
   max x.maxLon y.maxLon, max x.maxLat y.maxLat⟩

/-- Stated from the spec sentence, for comparison with the code: the union
bounding box of the given boxes (`none` when there are none). -/
def unionBBox : List BBox → Option BBox
  | [] => none
  | b :: bs => some (bs.foldl BBox.union b)

/-- Stated from the spec sentence, for comparison with the code: expand a
box by `p/2` of its width on each horizontal side and `p/2` of its height on
each vertical side. -/
def expandBBox (p : ℚ) (x : BBox) : BBox :=
  ⟨x.minLon - p / 2 * (x.maxLon - x.minLon),
   x.minLat - p / 2 * (x.maxLat - x.minLat),
   x.maxLon + p / 2 * (x.maxLon - x.minLon),
   x.maxLat + p / 2 * (x.maxLat - x.minLat)⟩

theorem foldl_union_eq (bs : List BBox) (b : BBox) :
    bs.foldl BBox.union b =
      ⟨(bs.map BBox.minLon).foldl min b.minLon,
       (bs.map BBox.minLat).foldl min b.minLat,
       (bs.map BBox.maxLon).foldl max b.maxLon,
       (bs.map BBox.maxLat).foldl max b.maxLat⟩ := by
  induction bs generalizing b with
  | nil => rfl
  | cons x xs ih => simp [List.foldl_cons, ih, BBox.union]

/-- C5: `_compute_clip_bounds` with padding 0 is exactly the union bounding
box of the given geometry bounds; with padding `p` it is that box expanded
by `p/2`·width horizontally and `p/2`·height vertically on each side; and it
is `None` when no geometry bounds are given (no overlays, or all bounds
`None`). -/
theorem computeClipBounds_spec (overlayBounds : List (Option BBox)) (p : ℚ) :
    computeClipBounds overlayBounds 0 = unionBBox (overlayBounds.filterMap id) ∧
      computeClipBounds overlayBounds p =
        (unionBBox (overlayBounds.filterMap id)).map (expandBBox p) ∧
      (overlayBounds.filterMap id = [] → computeClipBounds overlayBounds p = none) := by
  have main : ∀ q : ℚ, computeClipBounds overlayBounds q =
      (unionBBox (overlayBounds.filterMap id)).map (expandBBox q) := by
    intro q
    cases h : overlayBounds.filterMap id with
    | nil => simp [computeClipBounds, unionBBox, h]
    | cons b bs =>
      simp only [computeClipBounds, unionBBox, h, Option.map_some']
      rw [foldl_union_eq]
      simp only [Option.some.injEq, expandBBox, BBox.mk.injEq]
      refine ⟨by ring, by ring, by ring, by ring⟩
  refine ⟨?_, main p, ?_⟩
  · rw [main 0]
    cases unionBBox (overlayBounds.filterMap id) with
    | none => rfl
    | some b => simp [expandBBox]
  · intro h
    rw [main p, h]
    rfl

/-- C5 witness: two overlays, one without bounds; padding 1/2 pads the unit
box by a quarter of its extent on each side. -/
theorem computeClipBounds_spec_witness :
    computeClipBounds [some ⟨0, 0, 1, 1⟩, none] 0 =
        unionBBox ([some (⟨0, 0, 1, 1⟩ : BBox), none].filterMap id) ∧
      computeClipBounds [] (1/2) = none := by
  refine ⟨(computeClipBounds_spec [some ⟨0, 0, 1, 1⟩, none] 0).1, ?_⟩
  exact (computeClipBounds_spec [] (1/2)).2.2 rfl

/-!
## Claim C7 — `MultiIndexMapRenderer._mask_with_geojson`
-/

/-- A 2-D float array (`np.ndarray` of shape `(h, w)`). -/
@[ext]
structure Grid where
  h : Nat
  w : Nat
  val : Nat → Nat → FVal

/-- An affine transform `rasterio.Affine` with coefficients
`(a, b, c, d, e, f)`: `x = a·col + b·row + c`, `y = d·col + e·row + f`. -/
structure AffineT where
  a : ℚ
  b : ℚ
  c : ℚ
  d : ℚ
  e : ℚ
  f : ℚ
deriving DecidableEq, Repr

/-- `_mask_with_geojson(data, transform, overlay_geojsons)`: collect the
geometries of every overlay document into `shapes`; if there are none,
return `data` unchanged; otherwise rasterize the shapes into a boolean mask
on `data`'s grid and replace every out-of-mask pixel with NaN.  The external
`rasterio.features.rasterize` is abstracted by the deterministic argument
`rasterize` (shapes, out-shape, transform ↦ mask). -/
def maskWithGeojson {γ : Type}
    (rasterize : List γ → Nat → Nat → AffineT → Nat → Nat → Bool)
    (data : Grid) (transform : AffineT) (overlayGeojsons : List (List γ)) : Grid :=
  let shapes := overlayGeojsons.foldl (fun acc g => acc ++ g) []
  if shapes.isEmpty then data
  else
    { h := data.h, w := data.w,
      val := fun r c =>
        if rasterize shapes data.h data.w transform r c then data.val r c
        else FVal.nan }

/-- C7: applying the polygon mask twice with the same shape, transform and
geometry set equals applying it once; with no geometries the input array is
returned unchanged. -/
theorem maskWithGeojson_idempotent {γ : Type}
    (rasterize : List γ → Nat → Nat → AffineT → Nat → Nat → Bool)
    (data : Grid) (transform : AffineT) (overlayGeojsons : List (List γ)) :
    maskWithGeojson rasterize
        (maskWithGeojson rasterize data transform overlayGeojsons)
        transform overlayGeojsons =
      maskWithGeojson rasterize data transform overlayGeojsons ∧
    (overlayGeojsons.foldl (fun acc g => acc ++ g) [] = [] →
      maskWithGeojson rasterize data transform overlayGeojsons = data) := by
  constructor
  · by_cases hs : (overlayGeojsons.foldl (fun acc g => acc ++ g) []).isEmpty
    · simp [maskWithGeojson, hs]
    · simp only [maskWithGeojson, hs, Bool.false_eq_true, if_false]
      refine Grid.ext rfl rfl ?_
      funext r c
      by_cases m :
          rasterize (overlayGeojsons.foldl (fun acc g => acc ++ g) [])
            data.h data.w transform r c = true <;>
        simp [m]
  · intro h
    simp [maskWithGeojson, h]

/-- C7 witness: the no-geometries clause at a concrete 1×1 grid. -/
theorem maskWithGeojson_idempotent_witness :
    maskWithGeojson (fun (_ : List Unit) _ _ _ _ _ => true)
        ⟨1, 1, fun _ _ => FVal.fin 1⟩ ⟨1, 0, 0, 0, 1, 0⟩ [] =
      ⟨1, 1, fun _ _ => FVal.fin 1⟩ := by
  exact (maskWithGeojson_idempotent (fun (_ : List Unit) _ _ _ _ _ => true)
    ⟨1, 1, fun _ _ => FVal.fin 1⟩ ⟨1, 0, 0, 0, 1, 0⟩ []).2 rfl


/-!
## Claim C6 — `CSVExporter.export` (`src/core/engine/exporters/csv_exporter.py`)

The writer's output is modelled as the sequence of rows written to the file.
-/

/-- Pixel-center geographic coordinate, `rasterio.transform.xy(t, row, col,
offset="center")`: the affine applied to `(col + 1/2, row + 1/2)`. -/
def pixelCenter (t : AffineT) (row col : ℕ) : ℚ × ℚ :=
  (t.a * ((col : ℚ) + 1/2) + t.b * ((row : ℚ) + 1/2) + t.c,
   t.d * ((col : ℚ) + 1/2) + t.e * ((row : ℚ) + 1/2) + t.f)

/-- One row of the produced CSV document. -/
inductive CsvRow where
  | header (f1 f2 f3 : String)
  | datum (lon lat value : ℚ)
deriving DecidableEq, Repr

/-- `valid = np.isfinite(row); cols = np.nonzero(valid)[0]`: the column
indices of a row's finite pixels, paired with their values. -/
def validPixels (row : List FVal) : List (ℕ × FVal) :=
  row.enum.filter (fun q => q.2.isFinite)

/-- The CSV rows one array row contributes: one per finite pixel, holding
the pixel-center coordinate and `float(row[col_idx])`. -/
def rowDatums (t : AffineT) (p : ℕ × List FVal) : List CsvRow :=
  (validPixels p.2).map (fun q =>
    CsvRow.datum (pixelCenter t p.1 q.1).1 (pixelCenter t p.1 q.1).2 q.2.toRat)

/-- `CSVExporter.export(data, transform, output_path)`, as the list of rows
written: the field-name header, then — per array row, skipping rows with no
finite pixel (`if not np.any(valid): continue`) — that row's datum rows. -/
def csvExport (data : List (List FVal)) (t : AffineT) : List CsvRow :=
  CsvRow.header "longitude" "latitude" "value" ::
    data.enum.foldl (fun acc p =>
      if (validPixels p.2).isEmpty then acc else acc ++ rowDatums t p) []

/-- Stated from the spec sentence, for comparison with the code: for every
finite pixel in row-major order, one row with its center-point coordinate
and raw value; non-finite pixels produce no row. -/
def specTabularRows (data : List (List FVal)) (t : AffineT) : List CsvRow :=
  (data.enum.map (fun p =>
    p.2.enum.filterMap (fun q =>
      if q.2.isFinite then
        some (CsvRow.datum (pixelCenter t p.1 q.1).1 (pixelCenter t p.1 q.1).2
          q.2.toRat)
      else none))).flatten

/-- Number of pixels with a finite value. -/
def countFinite (data : List (List FVal)) : ℕ :=
  (data.map (fun row => (row.filter (fun v => v.isFinite)).length)).sum

theorem foldl_rowDatums_eq (t : AffineT) (l : List (ℕ × List FVal))
    (init : List CsvRow) :
    l.foldl (fun acc p =>
        if (validPixels p.2).isEmpty then acc else acc ++ rowDatums t p) init =
      init ++ (l.map (rowDatums t)).flatten := by
  induction l generalizing init with
  | nil => simp
  | cons x xs ih =>
    rw [List.foldl_cons]
    by_cases h : (validPixels x.2).isEmpty
    · have hx : rowDatums t x = [] := by
        have hv : validPixels x.2 = [] := by simpa using h
        simp [rowDatums, hv]
      rw [if_pos h, ih, List.map_cons, List.flatten_cons, hx, List.nil_append]
    · rw [if_neg h, ih, List.map_cons, List.flatten_cons, List.append_assoc]

theorem map_filter_eq_filterMap {α β : Type} (p : α → Bool) (f : α → β)
    (l : List α) :
    (l.filter p).map f =
      l.filterMap (fun x => if p x then some (f x) else none) := by
  induction l with
  | nil => rfl
  | cons x xs ih => by_cases h : p x <;> simp [List.filter_cons, h, ih]

theorem enumFrom_map_snd {α : Type} (n : ℕ) (l : List α) :
    (List.enumFrom n l).map Prod.snd = l := by
  induction l generalizing n with
  | nil => rfl
  | cons x xs ih => simp [List.enumFrom, ih]

theorem length_filter_enumFrom {α : Type} (p : α → Bool) (n : ℕ) (l : List α) :
    ((List.enumFrom n l).filter (fun q => p q.2)).length =
      (l.filter p).length := by
  induction l generalizing n with
  | nil => rfl
  | cons x xs ih =>
    by_cases h : p x <;> simp [List.enumFrom, List.filter_cons, h, ih]

/-- C6: the tabular export writes exactly one header row followed by one row
per finite pixel, in row-major order, each carrying the pixel-center
coordinate derived from the affine transform and the raw value; non-finite
pixels produce no row.  In particular the row count is 1 + (number of finite
pixels). -/
theorem csvExport_spec (data : List (List FVal)) (t : AffineT) :
    csvExport data t =
        CsvRow.header "longitude" "latitude" "value" :: specTabularRows data t ∧
      (csvExport data t).length = 1 + countFinite data := by
  have hrow : ∀ p : ℕ × List FVal, rowDatums t p =
      p.2.enum.filterMap (fun q =>
        if q.2.isFinite then
          some (CsvRow.datum (pixelCenter t p.1 q.1).1 (pixelCenter t p.1 q.1).2
            q.2.toRat)
        else none) := by
    intro p
    unfold rowDatums validPixels
    rw [map_filter_eq_filterMap]
  have hmain : csvExport data t =
      CsvRow.header "longitude" "latitude" "value" :: specTabularRows data t := by
    unfold csvExport specTabularRows
    rw [foldl_rowDatums_eq]
    simp only [List.nil_append, List.cons.injEq, true_and]
    exact congrArg (fun f => (List.map f data.enum).flatten) (funext hrow)
  refine ⟨hmain, ?_⟩
  rw [hmain]
  simp only [List.length_cons]
  have hlen : (specTabularRows data t).length = countFinite data := by
    unfold specTabularRows countFinite
    rw [List.length_flatten, List.map_map]
    have hfn : ∀ p : ℕ × List FVal,
        (List.length ∘ fun p : ℕ × List FVal =>
          p.2.enum.filterMap (fun q =>
            if q.2.isFinite then
              some (CsvRow.datum (pixelCenter t p.1 q.1).1
                (pixelCenter t p.1 q.1).2 q.2.toRat)
            else none)) p =
          ((fun row : List FVal =>
            (row.filter (fun v => v.isFinite)).length) ∘ Prod.snd) p := by
      intro p
      simp only [Function.comp_apply]
      rw [← hrow p, rowDatums, List.length_map, validPixels]
      exact length_filter_enumFrom _ 0 p.2
    rw [funext hfn, ← List.map_map, List.enum_map_snd]
  omega

/-!
## Claim C9 — `AreaOfInterest.to_wkt` (`src/core/domain/entities.py`)

WKT serialization is modelled structurally: the output carries the ring
coordinate lists that the string would render, the numeric formatting of
coordinates being elided.
-/

/-- A point `[lon, lat]` of a GeoJSON ring. -/
abbrev GeoPoint := ℚ × ℚ

/-- A resolved GeoJSON geometry: its `type` together with `coordinates` of
the matching shape; `other` covers every type that is neither `Polygon` nor
`MultiPolygon` (carrying the value of `geometry.get("type")`). -/
inductive Geom where
  | polygon (rings : List (List GeoPoint))
  | multiPolygon (polys : List (List (List GeoPoint)))
  | other (gtype : Option String)

/-- The stored geometry document: a bare geometry, a Feature, or a
FeatureCollection (each feature represented by its geometry). -/
inductive GeoDoc where
  | geom (g : Geom)
  | feature (g : Geom)
  | featureCollection (gs : List Geom)

inductive WktError where
  | emptyCollection
  | emptyRing
  | unsupported (gtype : Option String)
deriving DecidableEq, Repr

/-- The structural content of the emitted WKT string. -/
inductive Wkt where
  | poly (rings : List (List GeoPoint))
  | multi (polys : List (List (List GeoPoint)))
deriving DecidableEq, Repr

/-- `AreaOfInterest._extract_geometry`: unwrap FeatureCollection (first
feature; error when empty) or Feature, else the geometry itself. -/
def extractGeometry : GeoDoc → Except WktError Geom
  | .featureCollection [] => .error .emptyCollection
  | .featureCollection (g :: _) => .ok g
  | .feature g => .ok g
  | .geom g => .ok g

/-- The ring handling inside `_polygon_to_wkt`: an empty ring is an error;
a ring whose first coordinate differs from its last gets its first
coordinate appended; otherwise it is kept as is. -/
def closeRing : List GeoPoint → Except WktError (List GeoPoint)
  | [] => .error .emptyRing
  | p :: ps =>
    if (p :: ps).getLast? ≠ some p then .ok ((p :: ps) ++ [p])
    else .ok (p :: ps)

/-- The `for ring in coordinates` loop of `_polygon_to_wkt`. -/
def closeRings : List (List GeoPoint) → Except WktError (List (List GeoPoint))
  | [] => .ok []
  | r :: rs =>
    match closeRing r with
    | .error e => .error e
    | .ok r' =>
      match closeRings rs with
      | .error e => .error e
      | .ok rs' => .ok (r' :: rs')

/-- The `[self._polygon_to_wkt(polygon) for polygon in coordinates]` loop of
the MultiPolygon branch. -/
def closePolys :
    List (List (List GeoPoint)) → Except WktError (List (List (List GeoPoint)))
  | [] => .ok []
  | p :: ps =>
    match closeRings p with
    | .error e => .error e
    | .ok p' =>
      match closePolys ps with
      | .error e => .error e
      | .ok ps' => .ok (p' :: ps')

/-- `AreaOfInterest.to_wkt`: extract the geometry, dispatch on its type,
close all rings; any other type raises `Unsupported geometry type`. -/
def toWkt (doc : GeoDoc) : Except WktError Wkt :=
  match extractGeometry doc with
  | .error e => .error e
  | .ok (.polygon rings) =>
    match closeRings rings with
    | .error e => .error e
    | .ok rs => .ok (.poly rs)
  | .ok (.multiPolygon polys) =>
    match closePolys polys with
    | .error e => .error e
    | .ok ps => .ok (.multi ps)
  | .ok (.other t) => .error (.unsupported t)

/-- A ring is closed when its first coordinate equals its last. -/
def ringClosed (r : List GeoPoint) : Prop := r.head? = r.getLast?

/-- The rings a WKT value renders. -/
def wktRings : Wkt → List (List GeoPoint)
  | .poly rings => rings
  | .multi polys => polys.flatten

theorem closeRing_closed {r r' : List GeoPoint} (h : closeRing r = .ok r') :
    ringClosed r' ∧ (ringClosed r → r' = r) ∧ (¬ringClosed r → r' = r ++ [r.headI]) := by
  match r with
  | [] => simp [closeRing] at h
  | p :: ps =>
    have hhead : (p :: ps).head? = some p := rfl
    rw [closeRing] at h
    by_cases hl : (p :: ps).getLast? = some p
    · rw [if_neg (by simpa using hl)] at h
      cases h
      have hc : ringClosed (p :: ps) := by rw [ringClosed, hhead, hl]
      exact ⟨hc, fun _ => rfl, fun hnc => absurd hc hnc⟩
    · rw [if_pos (by simpa using hl)] at h
      cases h
      have hcl : ringClosed ((p :: ps) ++ [p]) := by
        rw [ringClosed, List.getLast?_concat]
        rfl
      have hnc : ¬ringClosed (p :: ps) := by
        rw [ringClosed, hhead]
        exact fun hx => hl hx.symm
      exact ⟨hcl, fun hc => absurd hc hnc, fun _ => rfl⟩

theorem closeRings_closed {rs rs' : List (List GeoPoint)}
    (h : closeRings rs = .ok rs') : ∀ r ∈ rs', ringClosed r := by
  induction rs generalizing rs' with
  | nil => cases h; intro r hr; cases hr
  | cons x xs ih =>
    rw [closeRings] at h
    cases hx : closeRing x with
    | error e => rw [hx] at h; cases h
    | ok x' =>
      rw [hx] at h
      cases hxs : closeRings xs with
      | error e => rw [hxs] at h; cases h
      | ok xs' =>
        rw [hxs] at h
        cases h
        intro r hr
        rcases List.mem_cons.mp hr with rfl | hr
        · exact (closeRing_closed hx).1
        · exact ih hxs r hr

theorem closePolys_closed {ps ps' : List (List (List GeoPoint))}
    (h : closePolys ps = .ok ps') : ∀ q ∈ ps', ∀ r ∈ q, ringClosed r := by
  induction ps generalizing ps' with
  | nil => cases h; intro q hq; cases hq
  | cons x xs ih =>
    rw [closePolys] at h
    cases hx : closeRings x with
    | error e => rw [hx] at h; cases h
    | ok x' =>
      rw [hx] at h
      cases hxs : closePolys xs with
      | error e => rw [hxs] at h; cases h
      | ok xs' =>
        rw [hxs] at h
        cases h
        intro q hq
        rcases List.mem_cons.mp hq with rfl | hq
        · exact closeRings_closed hx
        · exact ih hxs q hq

/-- C9: `to_wkt` emits only closed rings — every ring of a successfully
serialized Polygon or MultiPolygon has first = last coordinate; a ring that
is already closed is emitted unchanged and an open ring has its first
coordinate appended (shown at the `closeRing` step every emitted ring goes
through); and a geometry whose resolved type is neither Polygon nor
MultiPolygon makes `to_wkt` fail with the unsupported-geometry error. -/
theorem toWkt_rings_closed (doc : GeoDoc) (w : Wkt) (r : List GeoPoint)
    (t : Option String) :
    (toWkt doc = .ok w → ∀ ring ∈ wktRings w, ringClosed ring) ∧
      (r ≠ [] → (ringClosed r → closeRing r = .ok r) ∧
        (¬ringClosed r → closeRing r = .ok (r ++ [r.headI]))) ∧
      (extractGeometry doc = .ok (.other t) →
        toWkt doc = .error (.unsupported t)) := by
  refine ⟨?_, ?_, ?_⟩
  · intro h ring hr
    rw [toWkt] at h
    split at h
    · cases h
    · next rings heq =>
        split at h
        · cases h
        · next rs hc =>
            cases h
            exact closeRings_closed hc ring (by simpa [wktRings] using hr)
    · next polys heq =>
        split at h
        · cases h
        · next ps hc =>
            cases h
            simp only [wktRings, List.mem_flatten] at hr
            obtain ⟨q, hq, hrq⟩ := hr
            exact closePolys_closed hc q hq ring hrq
    · cases h
  · intro hne
    match r, hne with
    | p :: ps, _ =>
      have hhead : (p :: ps).head? = some p := rfl
      constructor
      · intro hc
        have hl : (p :: ps).getLast? = some p := by
          rw [ringClosed, hhead] at hc
          exact hc.symm
        rw [closeRing, if_neg (by simpa using hl)]
      · intro hc
        have hl : ¬(p :: ps).getLast? = some p := fun hx => by
          rw [ringClosed, hhead] at hc
          exact hc hx.symm
        rw [closeRing, if_pos (by simpa using hl)]
        rfl
  · intro h
    rw [toWkt, h]

/-- C9 witness: a Feature wrapping a one-ring Polygon whose ring is open;
the emitted ring is the input ring with its first coordinate appended, and
is closed. -/
theorem toWkt_rings_closed_witness :
    (toWkt (.feature (.polygon [[(0, 0), (1, 0), (1, 1)]])) =
        .ok (.poly [[(0, 0), (1, 0), (1, 1), (0, 0)]]) → ∀ ring ∈
          wktRings (.poly [[(0, 0), (1, 0), (1, 1), (0, 0)]]), ringClosed ring) ∧
      closeRing [((0 : ℚ), (0 : ℚ)), (1, 0), (1, 1)] =
        .ok [(0, 0), (1, 0), (1, 1), (0, 0)] ∧
      toWkt (.geom (.other (some "Point"))) =
        .error (.unsupported (some "Point")) := by
  have h := toWkt_rings_closed (.feature (.polygon [[(0, 0), (1, 0), (1, 1)]]))
    (.poly [[(0, 0), (1, 0), (1, 1), (0, 0)]])
    [((0 : ℚ), (0 : ℚ)), (1, 0), (1, 1)] (some "Point")
  have h2 := toWkt_rings_closed (.geom (.other (some "Point")))
    (.poly [[(0, 0), (1, 0), (1, 1), (0, 0)]])
    [((0 : ℚ), (0 : ℚ)), (1, 0), (1, 1)] (some "Point")
  refine ⟨h.1, ?_, h2.2.2 rfl⟩
  have hopen : ¬ringClosed [((0 : ℚ), (0 : ℚ)), (1, 0), (1, 1)] := by
    rw [ringClosed,
      show ([((0 : ℚ), (0 : ℚ)), (1, 0), (1, 1)]).head? = some (0, 0) from rfl,
      show ([((0 : ℚ), (0 : ℚ)), (1, 0), (1, 1)]).getLast? = some (1, 1) from rfl]
    intro hx
    rw [Option.some.injEq, Prod.mk.injEq] at hx
    exact absurd hx.1 (by norm_num)
  simpa [List.headI] using (h.2.1 (by simp)).2 hopen

/-!
## `IndexCalculator.analyse_scene` (`src/core/engine/index_calculator.py`)
and the workflow pipeline (`src/core/pipeline/`)

The filesystem of rasters is the function `env : path ↦ raster`, and the
external `rasterio.warp.reproject` is the function argument `reproject`
(resampling mode, source raster, destination grid ↦ destination pixels).
Raster reads/writes are collected in an I/O trace in program order.

Two order-only elisions from the source, which no claim depends on:
`dict.fromkeys`/`set` deduplication is modelled with `List.dedup`
(membership-equivalent), and the `sorted(...)` in the two error messages is
dropped — the error values carry the offending names, in deterministic
first-appearance order.
-/

/-- Errors raised by `analyse_scene` (`ValueError`/`RuntimeError`/`KeyError`
in the source, distinguished here by payload). -/
inductive AnalysisError where
  | noIndicesRequested
  | unsupportedIndices (names : List String)
  | missingBands (names : List String)
  | missingNirPath
deriving DecidableEq, Repr

/-- A georeferenced single-band raster: dimensions, affine transform,
coordinate reference system (abstract id) and pixel data. -/
structure Raster where
  height : ℕ
  width : ℕ
  transform : AffineT
  crs : ℕ
  data : ℕ → ℕ → FVal

/-- Raster-file I/O events. -/
inductive IOEvent where
  | readRaster (path : String)
  | writeRaster (path : String) (contents : Raster)

/-- `rasterio.enums.Resampling` (only bilinear is used). -/
inductive Resampling where
  | bilinear
deriving DecidableEq, Repr

/-- `load_raster(path, reference_path)`: read the raster at `path`; when a
reference path is given, open the reference too and — if transform or
dimensions differ — reproject with `Resampling.bilinear` onto exactly the
reference grid (dimensions, transform and CRS of the reference).  Returns
the raster and the reads performed. -/
def load_raster (env : String → Raster)
    (reproject : Resampling → Raster → Raster → ℕ → ℕ → FVal)
    (path : String) (referencePath : Option String) :
    Raster × List IOEvent :=
  match referencePath with
  | none => (env path, [.readRaster path])
  | some refPath =>
    if (env path).transform ≠ (env refPath).transform ∨
        (env path).height ≠ (env refPath).height ∨
        (env path).width ≠ (env refPath).width then
      ({ height := (env refPath).height, width := (env refPath).width,
         transform := (env refPath).transform, crs := (env refPath).crs,
         data := reproject .bilinear (env path) (env refPath) },
       [.readRaster path, .readRaster refPath])
    else
      (env path, [.readRaster path, .readRaster refPath])

/-- `save_raster(array, template_path, destination)`: read the template's
metadata, write the array at the destination, return the destination. -/
def save_raster (array : Raster) (templatePath destination : String) :
    String × List IOEvent :=
  (destination, [.readRaster templatePath, .writeRaster destination array])

/-- `requested = list(dict.fromkeys(indices)) if indices is not None else
list(self.specs.keys())`. -/
def requestedOf (specs : List (String × IndexSpec)) :
    Option (List String) → List String
  | some idx => idx.dedup
  | none => specs.map Prod.fst

/-- `unknown = set(requested) - self.specs.keys()`. -/
def unknownOf (specs : List (String × IndexSpec)) (requested : List String) :
    List String :=
  (requested.filter (fun n => (specs.lookup n).isNone)).dedup

/-- `required`: the union of the required band aliases over the requested
indices. -/
def requiredBandsOf (specs : List (String × IndexSpec))
    (requested : List String) : List String :=
  (requested.foldl (fun acc n =>
    acc ++ ((specs.lookup n).map IndexSpec.bands).getD []) []).dedup

/-- `missing_bands = required - band_paths.keys()`. -/
def missingBandsOf (specs : List (String × IndexSpec))
    (requested : List String) (bandPaths : List (String × String)) :
    List String :=
  (requiredBandsOf specs requested).filter (fun b => (bandPaths.lookup b).isNone)

/-- One iteration of the `for band in required - {"nir"}` loop: load the
band against the nir reference and append the array and its I/O.  (After
the missing-band check, `band_paths.lookup band` is necessarily `some`;
`getD ""` is never the fallback there.) -/
def loadBandStep (env : String → Raster)
    (reproject : Resampling → Raster → Raster → ℕ → ℕ → FVal)
    (bandPaths : List (String × String)) (nirPath : String)
    (acc : List (String × Raster) × List IOEvent) (band : String) :
    List (String × Raster) × List IOEvent :=
  (acc.1 ++ [(band,
      (load_raster env reproject ((bandPaths.lookup band).getD "")
        (some nirPath)).1)],
   acc.2 ++ (load_raster env reproject ((bandPaths.lookup band).getD "")
     (some nirPath)).2)

/-- The band-loading phase of `analyse_scene`: `"nir"` is loaded first and
fixes the reference grid; every other required band is loaded against the
nir reference path. -/
def loadBandArrays (env : String → Raster)
    (reproject : Resampling → Raster → Raster → ℕ → ℕ → FVal)
    (bandPaths : List (String × String)) (nirPath : String)
    (required : List String) :
    List (String × Raster) × List IOEvent :=
  (required.filter (fun b => b ≠ "nir")).foldl
    (loadBandStep env reproject bandPaths nirPath)
    ([("nir", (load_raster env reproject nirPath none).1)],
     (load_raster env reproject nirPath none).2)

/-- A 0×0 placeholder raster (unreachable fallback after validation). -/
def emptyRaster : Raster :=
  ⟨0, 0, ⟨0, 0, 0, 0, 0, 0⟩, 0, fun _ _ => FVal.nan⟩

/-- `result = spec.func(*arrays)`: the index raster, computed pixelwise from
the loaded band arrays in the spec's band order, on the nir grid (all
operand arrays share it — claim C4). -/
def indexResult (spec : IndexSpec) (bandArrays : List (String × Raster))
    (nir : Raster) : Raster :=
  { height := nir.height, width := nir.width, transform := nir.transform,
    crs := nir.crs,
    data := fun r c =>
      spec.func (spec.bands.map (fun b =>
        ((bandArrays.lookup b).getD emptyRaster).data r c)) }

/-- One iteration of the output loop of `analyse_scene`: compute the index
and save it as `<output_dir>/<name>.tif` with the nir file as template. -/
def computeOutputStep (specs : List (String × IndexSpec))
    (bandArrays : List (String × Raster)) (nirRaster : Raster)
    (nirPath outputDir : String)
    (acc : List (String × String) × List IOEvent) (name : String) :
    List (String × String) × List IOEvent :=
  (acc.1 ++ [(name,
      (save_raster
        (indexResult ((specs.lookup name).getD ⟨[], fun _ => FVal.nan⟩)
          bandArrays nirRaster)
        nirPath (outputDir ++ "/" ++ name ++ ".tif")).1)],
   acc.2 ++ (save_raster
     (indexResult ((specs.lookup name).getD ⟨[], fun _ => FVal.nan⟩)
       bandArrays nirRaster)
     nirPath (outputDir ++ "/" ++ name ++ ".tif")).2)

/-- The compute-and-save loop of `analyse_scene`. -/
def computeOutputs (specs : List (String × IndexSpec))
    (bandArrays : List (String × Raster)) (nirRaster : Raster)
    (nirPath outputDir : String) (requested : List String) :
    List (String × String) × List IOEvent :=
  requested.foldl (computeOutputStep specs bandArrays nirRaster nirPath outputDir)
    ([], [])

/-- `IndexCalculator.analyse_scene(band_paths, output_dir, indices)`:
validate (empty request, unknown indices, missing bands — all before any
raster I/O), then load `"nir"` as the reference, load/reproject the other
required bands against it, and compute and save one output per requested
index.  Returns the outcome and the raster I/O trace in program order.
(`missingNirPath` models the `KeyError` of `band_paths["nir"]`, reachable
only with a custom registry in which no requested index requires nir.) -/
def analyseScene (env : String → Raster)
    (reproject : Resampling → Raster → Raster → ℕ → ℕ → FVal)
    (specs : List (String × IndexSpec)) (bandPaths : List (String × String))
    (outputDir : String) (indices : Option (List String)) :
    Except AnalysisError (List (String × String)) × List IOEvent :=
  let requested := requestedOf specs indices
  if requested.isEmpty then (.error .noIndicesRequested, [])
  else if !(unknownOf specs requested).isEmpty then
    (.error (.unsupportedIndices (unknownOf specs requested)), [])
  else if !(missingBandsOf specs requested bandPaths).isEmpty then
    (.error (.missingBands (missingBandsOf specs requested bandPaths)), [])
  else
    match bandPaths.lookup "nir" with
    | none => (.error .missingNirPath, [])
    | some nirPath =>
      let loaded := loadBandArrays env reproject bandPaths nirPath
        (requiredBandsOf specs requested)
      let outs := computeOutputs specs loaded.1
        (load_raster env reproject nirPath none).1 nirPath outputDir requested
      (.ok outs.1, loaded.2 ++ outs.2)

/-- `WorkflowContext` (`src/core/pipeline/models.py`): the mutable state
threaded through pipeline steps, restricted to the fields the steps below
read or write; paths are strings. -/
structure WorkflowCtx where
  productPath : Option String
  productTitle : Option String
  bands : List (String × String)
  indices : List (String × String)
  maps : List String
deriving DecidableEq, Repr

/-- Errors a pipeline step raises (`RuntimeError`s in the source). -/
inductive StepError where
  | noBandsAvailable
  | productNotResolved
  | calculatorError (e : AnalysisError)
deriving DecidableEq, Repr

/-- `ComputeIndicesStep.run(context)` (`src/core/pipeline/steps.py`), in
state-passing form: the outcome paired with the context after the call.
The calculator call (`self.calculator.analyse_scene(context.bands,
indices_dir, indices=requested)`) is abstracted as the function argument
`calc`; on success the produced outputs are assigned to `context.indices`. -/
def computeIndicesStepRun
    (calcFn : List (String × String) → Except AnalysisError (List (String × String)))
    (ctx : WorkflowCtx) : Except StepError Unit × WorkflowCtx :=
  if ctx.bands.isEmpty then (.error .noBandsAvailable, ctx)
  else if ctx.productTitle.isNone then (.error .productNotResolved, ctx)
  else
    match calcFn ctx.bands with
    | .error e => (.error (.calculatorError e), ctx)
    | .ok outs => (.ok (), { ctx with indices := outs })

/-- `Pipeline.run` (`src/core/pipeline/base.py`): run the steps in order;
a raised error aborts the run, leaving the context as that step left it. -/
def pipelineRun
    (steps : List (WorkflowCtx → Except StepError Unit × WorkflowCtx))
    (ctx : WorkflowCtx) : Except StepError Unit × WorkflowCtx :=
  match steps with
  | [] => (.ok (), ctx)
  | s :: rest =>
    match s ctx with
    | (.ok _, ctx') => pipelineRun rest ctx'
    | (.error e, ctx') => (.error e, ctx')

/-- C8: running the compute-indices step on a context whose bands mapping is
empty raises the no-bands error with the context — indices mapping and all
other fields — unchanged, whatever the calculator would do (so no index
computation happened); and a pipeline reaching that step aborts there with
the same error and context, running no later step. -/
theorem computeIndicesStep_empty_bands
    (calcFn : List (String × String) → Except AnalysisError (List (String × String)))
    (ctx : WorkflowCtx)
    (rest : List (WorkflowCtx → Except StepError Unit × WorkflowCtx))
    (hb : ctx.bands = []) :
    computeIndicesStepRun calcFn ctx = (.error .noBandsAvailable, ctx) ∧
      pipelineRun (computeIndicesStepRun calcFn :: rest) ctx =
        (.error .noBandsAvailable, ctx) := by
  have h1 : computeIndicesStepRun calcFn ctx = (.error .noBandsAvailable, ctx) := by
    rw [computeIndicesStepRun, hb]
    rfl
  refine ⟨h1, ?_⟩
  rw [pipelineRun, h1]

/-- C8 witness: a fresh context with no bands, a calculator that would
succeed, and a nonempty rest of the pipeline. -/
theorem computeIndicesStep_empty_bands_witness :
    computeIndicesStepRun (fun _ => .ok [("ndvi", "out/ndvi.tif")])
        ⟨none, some "S2A", [], [], []⟩ =
      (.error .noBandsAvailable, ⟨none, some "S2A", [], [], []⟩) ∧
      pipelineRun [computeIndicesStepRun (fun _ => .ok [("ndvi", "out/ndvi.tif")]),
          fun c => (.ok (), c)]
        ⟨none, some "S2A", [], [], []⟩ =
      (.error .noBandsAvailable, ⟨none, some "S2A", [], [], []⟩) :=
  computeIndicesStep_empty_bands _ _ _ rfl

theorem isEmpty_false_of_ne_nil {α : Type} {l : List α} (h : l ≠ []) :
    l.isEmpty = false := by
  cases l with
  | nil => exact absurd rfl h
  | cons x xs => rfl

/-- C2: whenever the requested index list contains a name absent from the
registry, `analyse_scene` raises the unknown-index error — naming that
index — before performing any file I/O: its raster I/O trace is empty, so
no raster file was opened and no output file was written. -/
theorem analyseScene_unknown_index (env : String → Raster)
    (reproject : Resampling → Raster → Raster → ℕ → ℕ → FVal)
    (specs : List (String × IndexSpec)) (bandPaths : List (String × String))
    (outputDir : String) (idx : List String) (name : String)
    (hmem : name ∈ idx) (hunk : (specs.lookup name).isNone = true) :
    (analyseScene env reproject specs bandPaths outputDir (some idx)).2 = [] ∧
      ∃ us,
        (analyseScene env reproject specs bandPaths outputDir (some idx)).1 =
            .error (.unsupportedIndices us) ∧ name ∈ us := by
  have hreq : name ∈ requestedOf specs (some idx) := by
    simpa [requestedOf, List.mem_dedup] using hmem
  have h1 : (requestedOf specs (some idx)).isEmpty = false :=
    isEmpty_false_of_ne_nil (List.ne_nil_of_mem hreq)
  have hu : name ∈ unknownOf specs (requestedOf specs (some idx)) := by
    rw [unknownOf, List.mem_dedup, List.mem_filter]
    exact ⟨hreq, hunk⟩
  have h2 : (unknownOf specs (requestedOf specs (some idx))).isEmpty = false :=
    isEmpty_false_of_ne_nil (List.ne_nil_of_mem hu)
  have heq : analyseScene env reproject specs bandPaths outputDir (some idx) =
      (.error (.unsupportedIndices
        (unknownOf specs (requestedOf specs (some idx)))), []) := by
    rw [analyseScene]
    simp only [h1, h2, Bool.false_eq_true, if_false, Bool.not_false, if_true]
  rw [heq]
  exact ⟨rfl, unknownOf specs (requestedOf specs (some idx)), rfl, hu⟩

/-- C2 witness: requesting `["ndvi", "bogus"]` against the default registry
with any band paths errors before any I/O. -/
theorem analyseScene_unknown_index_witness :
    (analyseScene (fun _ => emptyRaster) (fun _ _ _ _ _ => FVal.nan)
        INDEX_SPECS [("nir", "nir.tif")] "out" (some ["ndvi", "bogus"])).2 = [] ∧
      ∃ us,
        (analyseScene (fun _ => emptyRaster) (fun _ _ _ _ _ => FVal.nan)
            INDEX_SPECS [("nir", "nir.tif")] "out"
            (some ["ndvi", "bogus"])).1 =
          .error (.unsupportedIndices us) ∧ "bogus" ∈ us :=
  analyseScene_unknown_index (fun _ => emptyRaster) (fun _ _ _ _ _ => FVal.nan)
    INDEX_SPECS [("nir", "nir.tif")] "out" ["ndvi", "bogus"] "bogus"
    (by simp) (by simp [INDEX_SPECS])

/-- C3: when every requested index is registered but the union of their
required band aliases is not fully contained in the band-path mapping,
`analyse_scene` raises the missing-band error before loading any raster
(empty I/O trace), and the error names exactly the absent aliases: an alias
is in its payload iff it is required and absent from the mapping. -/
theorem analyseScene_missing_band (env : String → Raster)
    (reproject : Resampling → Raster → Raster → ℕ → ℕ → FVal)
    (specs : List (String × IndexSpec)) (bandPaths : List (String × String))
    (outputDir : String) (idx : List String) (b : String)
    (hne : idx ≠ [])
    (hknown : unknownOf specs (requestedOf specs (some idx)) = [])
    (hb : b ∈ requiredBandsOf specs (requestedOf specs (some idx)))
    (hmiss : (bandPaths.lookup b).isNone = true) :
    (analyseScene env reproject specs bandPaths outputDir (some idx)).2 = [] ∧
      ∃ ms,
        (analyseScene env reproject specs bandPaths outputDir (some idx)).1 =
            .error (.missingBands ms) ∧
          ∀ x, x ∈ ms ↔
            x ∈ requiredBandsOf specs (requestedOf specs (some idx)) ∧
              (bandPaths.lookup x).isNone = true := by
  have h1 : (requestedOf specs (some idx)).isEmpty = false := by
    refine isEmpty_false_of_ne_nil ?_
    intro hnil
    rcases List.exists_mem_of_ne_nil idx hne with ⟨a, ha⟩
    have : a ∈ requestedOf specs (some idx) := by
      simpa [requestedOf, List.mem_dedup] using ha
    rw [hnil] at this
    cases this
  have hm : b ∈ missingBandsOf specs (requestedOf specs (some idx)) bandPaths := by
    rw [missingBandsOf, List.mem_filter]
    exact ⟨hb, hmiss⟩
  have h3 : (missingBandsOf specs (requestedOf specs (some idx))
      bandPaths).isEmpty = false :=
    isEmpty_false_of_ne_nil (List.ne_nil_of_mem hm)
  have heq : analyseScene env reproject specs bandPaths outputDir (some idx) =
      (.error (.missingBands
        (missingBandsOf specs (requestedOf specs (some idx)) bandPaths)), []) := by
    rw [analyseScene]
    simp only [h1, hknown, h3, List.isEmpty_nil, Bool.not_true,
      Bool.false_eq_true, if_false, Bool.not_false, if_true]
  rw [heq]
  refine ⟨rfl, missingBandsOf specs (requestedOf specs (some idx)) bandPaths,
    rfl, fun x => ?_⟩
  rw [missingBandsOf, List.mem_filter]

/-- C3 witness: the spec's end-to-end scenario 3 — a BandSet missing
`"swir1"` while requesting `"ndwi"` (which needs nir and swir1): the
missing-band error names `swir1` and no I/O happened. -/
theorem analyseScene_missing_band_witness :
    (analyseScene (fun _ => emptyRaster) (fun _ _ _ _ _ => FVal.nan)
        INDEX_SPECS [("nir", "nir.tif")] "out" (some ["ndwi"])).2 = [] ∧
      ∃ ms,
        (analyseScene (fun _ => emptyRaster) (fun _ _ _ _ _ => FVal.nan)
            INDEX_SPECS [("nir", "nir.tif")] "out" (some ["ndwi"])).1 =
          .error (.missingBands ms) ∧
          ∀ x, x ∈ ms ↔
            x ∈ requiredBandsOf INDEX_SPECS
                (requestedOf INDEX_SPECS (some ["ndwi"])) ∧
              ((([("nir", "nir.tif")] : List (String × String)).lookup x).isNone
                = true) :=
  analyseScene_missing_band (fun _ => emptyRaster) (fun _ _ _ _ _ => FVal.nan)
    INDEX_SPECS [("nir", "nir.tif")] "out" ["ndwi"] "swir1"
    (by simp)
    (by decide)
    (by decide)
    (by simp)

theorem head?_append_of_head {α : Type} {l l' : List α} {a : α}
    (h : l.head? = some a) : (l ++ l').head? = some a := by
  cases l with
  | nil => cases h
  | cons x xs => simpa using h

/-- A band loaded against a reference path comes out on exactly the
reference raster's grid (dimensions and transform). -/
theorem load_raster_ref_grid (env : String → Raster)
    (reproject : Resampling → Raster → Raster → ℕ → ℕ → FVal)
    (path refPath : String) :
    ((load_raster env reproject path (some refPath)).1).height =
        (env refPath).height ∧
      ((load_raster env reproject path (some refPath)).1).width =
        (env refPath).width ∧
      ((load_raster env reproject path (some refPath)).1).transform =
        (env refPath).transform := by
  simp only [load_raster]
  by_cases hd : (env path).transform ≠ (env refPath).transform ∨
      (env path).height ≠ (env refPath).height ∨
      (env path).width ≠ (env refPath).width
  · rw [if_pos hd]
    exact ⟨rfl, rfl, rfl⟩
  · rw [if_neg hd]
    push_neg at hd
    exact ⟨hd.2.1, hd.2.2, hd.1⟩

/-- Every array produced by the band-loading phase carries the grid of the
raster at the nir path. -/
theorem loadBandArrays_grid (env : String → Raster)
    (reproject : Resampling → Raster → Raster → ℕ → ℕ → FVal)
    (bandPaths : List (String × String)) (nirPath : String)
    (required : List String) :
    ∀ p ∈ (loadBandArrays env reproject bandPaths nirPath required).1,
      p.2.height = (env nirPath).height ∧ p.2.width = (env nirPath).width ∧
        p.2.transform = (env nirPath).transform := by
  rw [loadBandArrays]
  have general : ∀ (l : List String)
      (acc : List (String × Raster) × List IOEvent),
      (∀ p ∈ acc.1, p.2.height = (env nirPath).height ∧
        p.2.width = (env nirPath).width ∧
        p.2.transform = (env nirPath).transform) →
      ∀ p ∈ (l.foldl (loadBandStep env reproject bandPaths nirPath) acc).1,
        p.2.height = (env nirPath).height ∧ p.2.width = (env nirPath).width ∧
          p.2.transform = (env nirPath).transform := by
    intro l
    induction l with
    | nil => intro acc hacc; exact hacc
    | cons x xs ih =>
      intro acc hacc
      rw [List.foldl_cons]
      refine ih _ ?_
      intro q hq
      rw [loadBandStep] at hq
      rcases List.mem_append.mp hq with hq | hq
      · exact hacc q hq
      · rcases List.mem_singleton.mp hq with rfl
        exact load_raster_ref_grid env reproject _ nirPath
  refine general _ _ ?_
  intro p hp
  rcases List.mem_singleton.mp hp with rfl
  exact ⟨rfl, rfl, rfl⟩

/-- The first raster I/O of the band-loading phase is reading the nir
path. -/
theorem loadBandArrays_trace_head (env : String → Raster)
    (reproject : Resampling → Raster → Raster → ℕ → ℕ → FVal)
    (bandPaths : List (String × String)) (nirPath : String)
    (required : List String) :
    (loadBandArrays env reproject bandPaths nirPath required).2.head? =
      some (.readRaster nirPath) := by
  rw [loadBandArrays]
  have general : ∀ (l : List String)
      (acc : List (String × Raster) × List IOEvent),
      acc.2.head? = some (.readRaster nirPath) →
      (l.foldl (loadBandStep env reproject bandPaths nirPath) acc).2.head? =
        some (.readRaster nirPath) := by
    intro l
    induction l with
    | nil => intro acc h; exact h
    | cons x xs ih =>
      intro acc h
      rw [List.foldl_cons]
      refine ih _ ?_
      rw [loadBandStep]
      exact head?_append_of_head h
  exact general _ _ rfl

/-- C4: when `analyse_scene`'s validation passes, the nir band is read
first (the I/O trace starts with the read of the nir path); the outputs are
computed from exactly the band arrays of the loading phase, every one of
which has the nir raster's height, width and transform; and a band whose
grid differs from the reference is replaced by a raster on exactly the
reference grid with bilinear-reprojected data. -/
theorem analyseScene_nir_reference (env : String → Raster)
    (reproject : Resampling → Raster → Raster → ℕ → ℕ → FVal)
    (specs : List (String × IndexSpec)) (bandPaths : List (String × String))
    (outputDir : String) (idx : List String) (nirPath : String)
    (h1 : (requestedOf specs (some idx)).isEmpty = false)
    (h2 : unknownOf specs (requestedOf specs (some idx)) = [])
    (h3 : missingBandsOf specs (requestedOf specs (some idx)) bandPaths = [])
    (h4 : bandPaths.lookup "nir" = some nirPath) :
    (analyseScene env reproject specs bandPaths outputDir (some idx)).2.head? =
        some (.readRaster nirPath) ∧
      (analyseScene env reproject specs bandPaths outputDir (some idx)).1 =
        .ok (computeOutputs specs
          (loadBandArrays env reproject bandPaths nirPath
            (requiredBandsOf specs (requestedOf specs (some idx)))).1
          (load_raster env reproject nirPath none).1 nirPath outputDir
          (requestedOf specs (some idx))).1 ∧
      (∀ p ∈ (loadBandArrays env reproject bandPaths nirPath
          (requiredBandsOf specs (requestedOf specs (some idx)))).1,
        p.2.height = (env nirPath).height ∧ p.2.width = (env nirPath).width ∧
          p.2.transform = (env nirPath).transform) ∧
      ∀ path refPath : String,
        ((env path).transform ≠ (env refPath).transform ∨
          (env path).height ≠ (env refPath).height ∨
          (env path).width ≠ (env refPath).width) →
        (load_raster env reproject path (some refPath)).1 =
          ⟨(env refPath).height, (env refPath).width, (env refPath).transform,
           (env refPath).crs, reproject .bilinear (env path) (env refPath)⟩ := by
  have heq : analyseScene env reproject specs bandPaths outputDir (some idx) =
      (.ok (computeOutputs specs
          (loadBandArrays env reproject bandPaths nirPath
            (requiredBandsOf specs (requestedOf specs (some idx)))).1
          (load_raster env reproject nirPath none).1 nirPath outputDir
          (requestedOf specs (some idx))).1,
        (loadBandArrays env reproject bandPaths nirPath
          (requiredBandsOf specs (requestedOf specs (some idx)))).2 ++
        (computeOutputs specs
          (loadBandArrays env reproject bandPaths nirPath
            (requiredBandsOf specs (requestedOf specs (some idx)))).1
          (load_raster env reproject nirPath none).1 nirPath outputDir
          (requestedOf specs (some idx))).2) := by
    rw [analyseScene]
    simp only [h1, h2, h3, h4, List.isEmpty_nil, Bool.not_true,
      Bool.false_eq_true, if_false]
  refine ⟨?_, ?_, loadBandArrays_grid env reproject bandPaths nirPath _, ?_⟩
  · rw [heq]
    exact head?_append_of_head
      (loadBandArrays_trace_head env reproject bandPaths nirPath _)
  · rw [heq]
  · intro path refPath hd
    simp only [load_raster]
    rw [if_pos hd]

/-- C4 witness: default registry, request `["ndvi"]`, band paths for nir and
red; validation passes and the theorem's conclusions hold. -/
theorem analyseScene_nir_reference_witness :
    (analyseScene (fun _ => emptyRaster) (fun _ _ _ _ _ => FVal.nan)
        INDEX_SPECS [("nir", "nir.tif"), ("red", "red.tif")] "out"
        (some ["ndvi"])).2.head? = some (.readRaster "nir.tif") ∧
      (analyseScene (fun _ => emptyRaster) (fun _ _ _ _ _ => FVal.nan)
          INDEX_SPECS [("nir", "nir.tif"), ("red", "red.tif")] "out"
          (some ["ndvi"])).1 =
        .ok (computeOutputs INDEX_SPECS
          (loadBandArrays (fun _ => emptyRaster) (fun _ _ _ _ _ => FVal.nan)
            [("nir", "nir.tif"), ("red", "red.tif")] "nir.tif"
            (requiredBandsOf INDEX_SPECS
              (requestedOf INDEX_SPECS (some ["ndvi"])))).1
          (load_raster (fun _ => emptyRaster) (fun _ _ _ _ _ => FVal.nan)
            "nir.tif" none).1 "nir.tif" "out"
          (requestedOf INDEX_SPECS (some ["ndvi"]))).1 ∧
      (∀ p ∈ (loadBandArrays (fun _ => emptyRaster) (fun _ _ _ _ _ => FVal.nan)
          [("nir", "nir.tif"), ("red", "red.tif")] "nir.tif"
          (requiredBandsOf INDEX_SPECS
            (requestedOf INDEX_SPECS (some ["ndvi"])))).1,
        p.2.height = emptyRaster.height ∧ p.2.width = emptyRaster.width ∧
          p.2.transform = emptyRaster.transform) ∧
      ∀ path refPath : String,
        (emptyRaster.transform ≠ emptyRaster.transform ∨
          emptyRaster.height ≠ emptyRaster.height ∨
          emptyRaster.width ≠ emptyRaster.width) →
        (load_raster (fun _ => emptyRaster) (fun _ _ _ _ _ => FVal.nan)
            path (some refPath)).1 =
          ⟨emptyRaster.height, emptyRaster.width, emptyRaster.transform,
           emptyRaster.crs,
           (fun _ _ _ _ _ => FVal.nan) Resampling.bilinear emptyRaster
             emptyRaster⟩ :=
  analyseScene_nir_reference (fun _ => emptyRaster) (fun _ _ _ _ _ => FVal.nan)
    INDEX_SPECS [("nir", "nir.tif"), ("red", "red.tif")] "out" ["ndvi"]
    "nir.tif" (by decide) (by decide) (by decide) (by decide)
